import Mathlib

/-!
Verification development for `snippet_repository_storage_move.go` of the
mercedes-benz/go-gitlab repository (package gitlab).

The file under verification is a thin HTTP binding: six service methods that
build a request path, call the injected client's `NewRequest` and `Do`, and
return the decoded record(s) plus transport metadata. The injected client
(`*Client`, `NewRequest`, `Do`, `Response`, `ListOptions`, `VisibilityValue`,
`RequestOptionFunc`) lives elsewhere in the repository and is modelled here
abstractly: an oracle supplying arbitrary `NewRequest` and `Do` outcomes, so
theorems quantify over every behaviour of the transport layer. JSON
(de)serialization performed by the Go standard library `encoding/json` on the
struct tags declared in the source file is modelled explicitly on a concrete
JSON syntax tree. Type-mismatch handling in the decoder is strict (it aborts
with an error rather than Go's continue-after-UnmarshalTypeError), which is
observationally equivalent here because every service method discards the
partially decoded value whenever `Do` reports an error.
-/

/-- Opaque model of Go `time.Time` as carried through JSON: the RFC 3339 text
the wire protocol uses. Parsing of the text is abstracted away. -/
structure TimeT where
  rfc3339 : String
deriving DecidableEq, Repr

/-- Modelled from the spec: `VisibilityValue` (visibility classification) is a
string-valued type defined elsewhere in the repository. -/
abbrev VisibilityValue := String

/-- Modelled from the spec: `ListOptions` (pagination parameters) is defined
elsewhere in the repository; the spec describes it as a plain option bag of
pagination parameters passed as query parameters. -/
structure ListOptions where
  Page : Int
  PerPage : Int
deriving DecidableEq, Repr

/-- Modelled from the spec: `RequestOptionFunc` hooks are defined elsewhere in
the repository; they are passed through unchanged and never invoked by this
file, so they are modelled as opaque tokens. -/
abbrev RequestOptionFunc := Nat

/-- `BasicSnippet` represents a snippet as part of a
`SnippetRepositoryStorageMove` (source lines 51-63). Go zero values: 0 for
ints, "" for strings, nil (`none`) for `*time.Time` pointers. -/
structure BasicSnippet where
  ID : Int
  Title : String
  Description : String
  Visibility : VisibilityValue
  UpdatedAt : Option TimeT
  CreatedAt : Option TimeT
  ProjectID : Int
  WebURL : String
  RawURL : String
  SshUrlToRepo : String
  HttpUrlToRepo : String
deriving DecidableEq, Repr

/-- `SnippetRepositoryStorageMove` represents the status of a repository move
(source lines 38-45). -/
structure SnippetRepositoryStorageMove where
  ID : Int
  CreatedAt : Option TimeT
  State : String
  SourceStorageName : String
  DestinationStorageName : String
  Snippet : BasicSnippet
deriving DecidableEq, Repr

/-- The zero value of `BasicSnippet`, as produced by Go allocation. -/
def zeroBasicSnippet : BasicSnippet :=
  ⟨0, "", "", "", none, none, 0, "", "", "", ""⟩

/-- The zero value of `SnippetRepositoryStorageMove`, as produced by
`new(SnippetRepositoryStorageMove)` in the source. -/
def zeroMove : SnippetRepositoryStorageMove :=
  ⟨0, none, "", "", "", zeroBasicSnippet⟩

/-- `RetrieveAllSnippetStorageMovesOptions` is declared in the source (line 69)
as a renaming of `ListOptions`. -/
abbrev RetrieveAllSnippetStorageMovesOptions := ListOptions

/-- `ScheduleSnippetStorageMoveOptions` (source lines 160-163): both fields
are strings carrying the `omitempty` JSON tag. -/
structure ScheduleSnippetStorageMoveOptions where
  SourceStorageName : String
  DestinationStorageName : String
deriving DecidableEq, Repr

/-- Concrete JSON syntax trees, standing for the bytes on the wire. Numbers
are modelled as integers, which covers every numeric field of this file's
data model. -/
inductive Json where
  | null : Json
  | bool (b : Bool) : Json
  | num (n : Int) : Json
  | str (s : String) : Json
  | arr (xs : List Json) : Json
  | obj (fields : List (String × Json)) : Json

/-- Field lookup in a JSON object. Go's `encoding/json` processes members in
order, a later duplicate key overwriting an earlier one, so the LAST binding
of a key wins. -/
def jlookup (fs : List (String × Json)) (k : String) : Option Json :=
  match fs with
  | [] => none
  | (k', v) :: rest =>
      match jlookup rest k with
      | some r => some r
      | none => if k' = k then some v else none

/-- Decode a JSON member into a Go `int` field: a missing key or `null` leaves
the field at its current value, a number overwrites it, anything else is an
`UnmarshalTypeError`. -/
def decIntField (fs : List (String × Json)) (k : String) (init : Int) : Option Int :=
  match jlookup fs k with
  | none => some init
  | some Json.null => some init
  | some (Json.num n) => some n
  | some _ => none

/-- Decode a JSON member into a Go `string` field: missing or `null` keeps the
current value, a string overwrites it, anything else errors. -/
def decStrField (fs : List (String × Json)) (k : String) (init : String) : Option String :=
  match jlookup fs k with
  | none => some init
  | some Json.null => some init
  | some (Json.str s) => some s
  | some _ => none

/-- Decode a JSON member into a Go `*time.Time` field: missing keeps the
current pointer, `null` sets it to nil, a string allocates the parsed time
(parsing abstracted as carrying the text), anything else errors. -/
def decTimeField (fs : List (String × Json)) (k : String) (init : Option TimeT) :
    Option (Option TimeT) :=
  match jlookup fs k with
  | none => some init
  | some Json.null => some none
  | some (Json.str s) => some (some ⟨s⟩)
  | some _ => none

/-- Modelled from the spec: `encoding/json` unmarshalling of a `BasicSnippet`
value, following the snake_case struct tags declared in the source
(lines 51-63); the unmarshaller itself is Go standard library code outside
this repository. `null` into a struct is a no-op. -/
def decodeBasicSnippet (init : BasicSnippet) : Json → Option BasicSnippet
  | Json.null => some init
  | Json.obj fs =>
      (decIntField fs "id" init.ID).bind fun i =>
      (decStrField fs "title" init.Title).bind fun t =>
      (decStrField fs "description" init.Description).bind fun d =>
      (decStrField fs "visibility" init.Visibility).bind fun v =>
      (decTimeField fs "updated_at" init.UpdatedAt).bind fun u =>
      (decTimeField fs "created_at" init.CreatedAt).bind fun c =>
      (decIntField fs "project_id" init.ProjectID).bind fun p =>
      (decStrField fs "web_url" init.WebURL).bind fun w =>
      (decStrField fs "raw_url" init.RawURL).bind fun r =>
      (decStrField fs "ssh_url_to_repo" init.SshUrlToRepo).bind fun sh =>
      (decStrField fs "http_url_to_repo" init.HttpUrlToRepo).map fun h =>
      ⟨i, t, d, v, u, c, p, w, r, sh, h⟩
  | _ => none

/-- Modelled from the spec: `encoding/json` unmarshalling of a
`SnippetRepositoryStorageMove` value, following the snake_case struct tags
declared in the source (lines 38-45). -/
def decodeMove (init : SnippetRepositoryStorageMove) : Json → Option SnippetRepositoryStorageMove
  | Json.null => some init
  | Json.obj fs =>
      (decIntField fs "id" init.ID).bind fun i =>
      (decTimeField fs "created_at" init.CreatedAt).bind fun c =>
      (decStrField fs "state" init.State).bind fun st =>
      (decStrField fs "source_storage_name" init.SourceStorageName).bind fun sr =>
      (decStrField fs "destination_storage_name" init.DestinationStorageName).bind fun ds =>
      (match jlookup fs "snippet" with
       | none => some init.Snippet
       | some j => decodeBasicSnippet init.Snippet j).map fun sn =>
      ⟨i, c, st, sr, ds, sn⟩
  | _ => none

/-- Unmarshal into a `*SnippetRepositoryStorageMove` target: `null` sets the
pointer to nil, an object allocates (when nil) and decodes into the pointee. -/
def decodeMovePtr (init : Option SnippetRepositoryStorageMove) (j : Json) :
    Option (Option SnippetRepositoryStorageMove) :=
  match j with
  | Json.null => some none
  | Json.obj fs => (decodeMove (init.getD zeroMove) (Json.obj fs)).map some
  | _ => none

/-- Unmarshal a list of JSON array elements into fresh `*Move` slice
elements. -/
def decodeMoveElems : List Json → Option (List (Option SnippetRepositoryStorageMove))
  | [] => some []
  | x :: xs =>
      match decodeMovePtr none x, decodeMoveElems xs with
      | some r, some rs => some (r :: rs)
      | _, _ => none

/-- Unmarshal into a `[]*SnippetRepositoryStorageMove` target: `null` yields
the nil slice (`none`), an array decodes element-wise, anything else errors. -/
def decodeMoveSlice (j : Json) : Option (Option (List (Option SnippetRepositoryStorageMove))) :=
  match j with
  | Json.null => some none
  | Json.arr xs => (decodeMoveElems xs).map some
  | _ => none

/-- HTTP methods used by the source file. -/
inductive Method where
  | get : Method
  | post : Method
deriving DecidableEq, Repr

/-- The body/options argument the source passes to `NewRequest`: Go `nil`, a
pagination-options value, or a schedule-options value. -/
inductive ReqBody where
  | nil : ReqBody
  | listOpts (o : RetrieveAllSnippetStorageMovesOptions) : ReqBody
  | scheduleOpts (o : ScheduleSnippetStorageMoveOptions) : ReqBody
deriving DecidableEq, Repr

/-- Modelled from the spec: the request value built by the external client's
`NewRequest`; opaque to this file, which only threads it into `Do`. -/
structure Request where
  method : Method
  path : String
  body : ReqBody
  options : List RequestOptionFunc
deriving DecidableEq, Repr

/-- Modelled from the spec: `*Response`, the raw transport response metadata
returned by the external client; opaque to this file. -/
structure Response where
  StatusCode : Int
  tag : Nat
deriving DecidableEq, Repr

/-- Go `error` values surfaced by the external client. The `probe` form lets
an oracle client report exactly the arguments it was called with, so theorems
can observe what the service passed to the transport layer. -/
inductive GoError where
  | msg (s : String) : GoError
  | probe (m : Method) (p : String) (b : ReqBody) (os : List RequestOptionFunc) : GoError
deriving DecidableEq, Repr

/-- Modelled from the spec: the injected `*Client`, an oracle over the two
operations this file uses. `newRequest` may fail before any network call;
`runDo` returns the transport response metadata together with either a
transport/status error or the response body to be JSON-decoded. -/
structure Client where
  newRequest : Method → String → ReqBody → List RequestOptionFunc → Except GoError Request
  runDo : Request → Option Response × Except GoError Json

/-- The error `encoding/json` produces when the response body fails to decode
into the target; surfaced by the external client's `Do`. -/
def jsonDecodeError : GoError := GoError.msg "json: cannot unmarshal"

/-- Modelled from the spec: `client.Do` with a `*[]*SnippetRepositoryStorageMove`
target — execute, then decode the body into a slice; a decode failure is
returned as `Do`'s error. -/
def doSlice (c : Client) (req : Request) :
    Option Response × Except GoError (Option (List (Option SnippetRepositoryStorageMove))) :=
  match c.runDo req with
  | (resp, Except.error e) => (resp, Except.error e)
  | (resp, Except.ok j) =>
      match decodeMoveSlice j with
      | some v => (resp, Except.ok v)
      | none => (resp, Except.error jsonDecodeError)

/-- Modelled from the spec: `client.Do` with a `*SnippetRepositoryStorageMove`
target pointing at an existing (zero) record. -/
def doRecord (c : Client) (req : Request) (init : SnippetRepositoryStorageMove) :
    Option Response × Except GoError SnippetRepositoryStorageMove :=
  match c.runDo req with
  | (resp, Except.error e) => (resp, Except.error e)
  | (resp, Except.ok j) =>
      match decodeMove init j with
      | some v => (resp, Except.ok v)
      | none => (resp, Except.error jsonDecodeError)

/-- Modelled from the spec: `client.Do` with a `**SnippetRepositoryStorageMove`
target (the address of a nil pointer variable). -/
def doPtr (c : Client) (req : Request) (init : Option SnippetRepositoryStorageMove) :
    Option Response × Except GoError (Option SnippetRepositoryStorageMove) :=
  match c.runDo req with
  | (resp, Except.error e) => (resp, Except.error e)
  | (resp, Except.ok j) =>
      match decodeMovePtr init j with
      | some v => (resp, Except.ok v)
      | none => (resp, Except.error jsonDecodeError)

/-- Rendering of a Go `int` by `fmt.Sprintf("%d", ...)`: decimal digits, with
a leading minus sign for negative values. -/
def goSprintfD (i : Int) : String :=
  if i < 0 then "-" ++ Nat.repr i.natAbs else Nat.repr i.toNat

/-- `SnippetRepositoryStorageMoveService` (source lines 30-32): a single field
holding the injected client. -/
structure SnippetRepositoryStorageMoveService where
  client : Client

/-- `RetrieveAllSnippetStorageMoves` (source lines 76-89). -/
def SnippetRepositoryStorageMoveService.RetrieveAllSnippetStorageMoves
    (s : SnippetRepositoryStorageMoveService)
    (opts : RetrieveAllSnippetStorageMovesOptions) (options : List RequestOptionFunc) :
    Option (List (Option SnippetRepositoryStorageMove)) × Option Response × Option GoError :=
  match s.client.newRequest Method.get "snippet_repository_storage_moves"
      (ReqBody.listOpts opts) options with
  | Except.error err => (none, none, some err)
  | Except.ok req =>
      match doSlice s.client req with
      | (resp, Except.error err) => (none, resp, some err)
      | (resp, Except.ok ssms) => (ssms, resp, none)

/-- `RetrieveAllStorageMovesForSnippet` (source lines 96-111). -/
def SnippetRepositoryStorageMoveService.RetrieveAllStorageMovesForSnippet
    (s : SnippetRepositoryStorageMoveService) (snippet : Int)
    (opts : RetrieveAllSnippetStorageMovesOptions) (options : List RequestOptionFunc) :
    Option (List (Option SnippetRepositoryStorageMove)) × Option Response × Option GoError :=
  match s.client.newRequest Method.get
      ("snippets/" ++ goSprintfD snippet ++ "/repository_storage_moves")
      (ReqBody.listOpts opts) options with
  | Except.error err => (none, none, some err)
  | Except.ok req =>
      match doSlice s.client req with
      | (resp, Except.error err) => (none, resp, some err)
      | (resp, Except.ok ssms) => (ssms, resp, none)

/-- `GetSnippetStorageMove` (source lines 117-132). -/
def SnippetRepositoryStorageMoveService.GetSnippetStorageMove
    (s : SnippetRepositoryStorageMoveService) (repositoryStorage : Int)
    (options : List RequestOptionFunc) :
    Option SnippetRepositoryStorageMove × Option Response × Option GoError :=
  match s.client.newRequest Method.get
      ("snippet_repository_storage_moves/" ++ goSprintfD repositoryStorage)
      ReqBody.nil options with
  | Except.error err => (none, none, some err)
  | Except.ok req =>
      match doRecord s.client req zeroMove with
      | (resp, Except.error err) => (none, resp, some err)
      | (resp, Except.ok ssm) => (some ssm, resp, none)

/-- `GetStorageMoveForSnippet` (source lines 138-153). -/
def SnippetRepositoryStorageMoveService.GetStorageMoveForSnippet
    (s : SnippetRepositoryStorageMoveService) (snippet : Int) (repositoryStorage : Int)
    (options : List RequestOptionFunc) :
    Option SnippetRepositoryStorageMove × Option Response × Option GoError :=
  match s.client.newRequest Method.get
      ("snippets/" ++ goSprintfD snippet ++ "/repository_storage_moves/" ++
        goSprintfD repositoryStorage)
      ReqBody.nil options with
  | Except.error err => (none, none, some err)
  | Except.ok req =>
      match doRecord s.client req zeroMove with
      | (resp, Except.error err) => (none, resp, some err)
      | (resp, Except.ok ssm) => (some ssm, resp, none)

/-- `ScheduleStorageMoveForSnippet` (source lines 169-184). -/
def SnippetRepositoryStorageMoveService.ScheduleStorageMoveForSnippet
    (s : SnippetRepositoryStorageMoveService) (snippet : Int)
    (opts : ScheduleSnippetStorageMoveOptions) (options : List RequestOptionFunc) :
    Option SnippetRepositoryStorageMove × Option Response × Option GoError :=
  match s.client.newRequest Method.post
      ("snippets/" ++ goSprintfD snippet ++ "/repository_storage_moves")
      (ReqBody.scheduleOpts opts) options with
  | Except.error err => (none, none, some err)
  | Except.ok req =>
      match doRecord s.client req zeroMove with
      | (resp, Except.error err) => (none, resp, some err)
      | (resp, Except.ok ssm) => (some ssm, resp, none)

/-- `ScheduleAllSnippetStorageMoves` (source lines 190-203): the body is
decoded into a local pointer variable `ssm` that is never returned. -/
def SnippetRepositoryStorageMoveService.ScheduleAllSnippetStorageMoves
    (s : SnippetRepositoryStorageMoveService)
    (opts : ScheduleSnippetStorageMoveOptions) (options : List RequestOptionFunc) :
    Option Response × Option GoError :=
  match s.client.newRequest Method.post "snippet_repository_storage_moves"
      (ReqBody.scheduleOpts opts) options with
  | Except.error err => (none, some err)
  | Except.ok req =>
      match doPtr s.client req none with
      | (resp, Except.error err) => (resp, some err)
      | (resp, Except.ok _ssm) => (resp, none)

/-- Canonical JSON encoding of a `*time.Time` field as it appears on the wire:
nil serializes to `null`, a time to its RFC 3339 string. -/
def encodeTime : Option TimeT → Json
  | none => Json.null
  | some t => Json.str t.rfc3339

/-- Canonical JSON encoding of a `BasicSnippet`, with the snake_case keys of
the struct tags in source lines 51-63, in declaration order. -/
def encodeBasicSnippet (b : BasicSnippet) : Json :=
  Json.obj
    [("id", Json.num b.ID), ("title", Json.str b.Title),
     ("description", Json.str b.Description), ("visibility", Json.str b.Visibility),
     ("updated_at", encodeTime b.UpdatedAt), ("created_at", encodeTime b.CreatedAt),
     ("project_id", Json.num b.ProjectID), ("web_url", Json.str b.WebURL),
     ("raw_url", Json.str b.RawURL), ("ssh_url_to_repo", Json.str b.SshUrlToRepo),
     ("http_url_to_repo", Json.str b.HttpUrlToRepo)]

/-- Canonical JSON encoding of a `SnippetRepositoryStorageMove`, with the
snake_case keys of the struct tags in source lines 38-45. -/
def encodeMove (r : SnippetRepositoryStorageMove) : Json :=
  Json.obj
    [("id", Json.num r.ID), ("created_at", encodeTime r.CreatedAt),
     ("state", Json.str r.State), ("source_storage_name", Json.str r.SourceStorageName),
     ("destination_storage_name", Json.str r.DestinationStorageName),
     ("snippet", encodeBasicSnippet r.Snippet)]

/-- Modelled from the spec: `encoding/json` marshalling of
`ScheduleSnippetStorageMoveOptions` as the request body (the serialization
happens inside the external client's `NewRequest`). Both fields carry the
`omitempty` tag declared in source lines 161-162, so a field is emitted if
and only if it differs from the empty string. -/
def marshalScheduleSnippetStorageMoveOptions (o : ScheduleSnippetStorageMoveOptions) : Json :=
  Json.obj
    ((if o.SourceStorageName = "" then []
      else [("source_storage_name", Json.str o.SourceStorageName)]) ++
     (if o.DestinationStorageName = "" then []
      else [("destination_storage_name", Json.str o.DestinationStorageName)]))

/-- The member keys of a JSON object (empty for non-objects). -/
def jsonKeys : Json → List String
  | Json.obj fs => fs.map Prod.fst
  | _ => []

/-- An oracle client whose `NewRequest` fails, reporting exactly the arguments
it received; lets theorems observe the method, path, body and options the
service passes to the transport layer. -/
def probeClient : Client where
  newRequest m p b os := Except.error (GoError.probe m p b os)
  runDo _ := (none, Except.error (GoError.msg "no transport"))

/-- The service wired to `probeClient`. -/
def probeService : SnippetRepositoryStorageMoveService := ⟨probeClient⟩

/-- An oracle client whose request construction succeeds and whose `Do`
returns the given response metadata and body. -/
def okClient (j : Json) (resp : Response) : Client where
  newRequest m p b os := Except.ok ⟨m, p, b, os⟩
  runDo _ := (some resp, Except.ok j)

/-- The service wired to `okClient j resp`. -/
def okService (j : Json) (resp : Response) : SnippetRepositoryStorageMoveService :=
  ⟨okClient j resp⟩

/-- An oracle client whose `NewRequest` fails with the given error. -/
def newReqErrClient (e : GoError) : Client where
  newRequest _ _ _ _ := Except.error e
  runDo _ := (none, Except.error (GoError.msg "unreachable"))

/-- An oracle client whose `NewRequest` succeeds and whose `Do` fails with the
given error alongside the given response metadata. -/
def doErrClient (e : GoError) (resp : Option Response) : Client where
  newRequest m p b os := Except.ok ⟨m, p, b, os⟩
  runDo _ := (resp, Except.error e)

/-- Modelled from the spec: the result contract of `ScheduleAllSnippetStorageMoves`
in the spec's words — the function's results are exactly the `(resp, err)`
pair from the underlying `Do` call, with no record exposed. -/
def doPairOnly (c : Client) (req : Request) : Option Response × Option GoError :=
  ((doPtr c req none).1,
   match (doPtr c req none).2 with
   | Except.error e => some e
   | Except.ok _ => none)

/-- A call to one of the six service operations, with its arguments. -/
inductive OpCall where
  | retrieveAll (opts : RetrieveAllSnippetStorageMovesOptions)
      (os : List RequestOptionFunc) : OpCall
  | retrieveForSnippet (snippet : Int) (opts : RetrieveAllSnippetStorageMovesOptions)
      (os : List RequestOptionFunc) : OpCall
  | getMove (repositoryStorage : Int) (os : List RequestOptionFunc) : OpCall
  | getMoveForSnippet (snippet repositoryStorage : Int)
      (os : List RequestOptionFunc) : OpCall
  | scheduleForSnippet (snippet : Int) (opts : ScheduleSnippetStorageMoveOptions)
      (os : List RequestOptionFunc) : OpCall
  | scheduleAll (opts : ScheduleSnippetStorageMoveOptions)
      (os : List RequestOptionFunc) : OpCall

/-- The result of one service operation. -/
inductive OpResult where
  | list (r : Option (List (Option SnippetRepositoryStorageMove)) ×
      Option Response × Option GoError) : OpResult
  | single (r : Option SnippetRepositoryStorageMove ×
      Option Response × Option GoError) : OpResult
  | metaOnly (r : Option Response × Option GoError) : OpResult

/-- State-passing form of the service operations: each Go method has a value
receiver and performs no assignment to the service or its client field, so
the translation returns the (unchanged) service alongside the result. -/
def applyOp (s : SnippetRepositoryStorageMoveService) :
    OpCall → SnippetRepositoryStorageMoveService × OpResult
  | OpCall.retrieveAll opts os => (s, OpResult.list (s.RetrieveAllSnippetStorageMoves opts os))
  | OpCall.retrieveForSnippet snippet opts os =>
      (s, OpResult.list (s.RetrieveAllStorageMovesForSnippet snippet opts os))
  | OpCall.getMove id os => (s, OpResult.single (s.GetSnippetStorageMove id os))
  | OpCall.getMoveForSnippet snippet id os =>
      (s, OpResult.single (s.GetStorageMoveForSnippet snippet id os))
  | OpCall.scheduleForSnippet snippet opts os =>
      (s, OpResult.single (s.ScheduleStorageMoveForSnippet snippet opts os))
  | OpCall.scheduleAll opts os => (s, OpResult.metaOnly (s.ScheduleAllSnippetStorageMoves opts os))

/-- Run a sequence of operations, threading the service state through. -/
def runOps (s : SnippetRepositoryStorageMoveService) (cs : List OpCall) :
    SnippetRepositoryStorageMoveService :=
  cs.foldl (fun st c => (applyOp st c).1) s

theorem goSprintfD_eq_toString (i : Int) : goSprintfD i = toString i := by
  cases i with
  | ofNat n =>
      have h : ¬ Int.ofNat n < 0 := Int.not_lt.2 (Int.natCast_nonneg n)
      simp only [goSprintfD, if_neg h]
      rfl
  | negSucc n =>
      have h : Int.negSucc n < 0 := Int.negSucc_lt_zero n
      simp only [goSprintfD, if_pos h]
      rfl

theorem decodeBasicSnippet_encode (init b : BasicSnippet) :
    decodeBasicSnippet init (encodeBasicSnippet b) = some b := by
  obtain ⟨i, t, d, v, u, c, p, w, r, sh, h⟩ := b
  cases u <;> cases c <;> rfl

theorem decodeMove_encode (init : SnippetRepositoryStorageMove)
    (r : SnippetRepositoryStorageMove) : decodeMove init (encodeMove r) = some r := by
  obtain ⟨i, c, st, s1, s2, sn⟩ := r
  obtain ⟨bi, bt, bd, bv, bu, bc, bp, bw, br, bs, bh⟩ := sn
  cases c <;> cases bu <;> cases bc <;> rfl

theorem decodeMovePtr_encode (r : SnippetRepositoryStorageMove) :
    decodeMovePtr none (encodeMove r) = some (some r) := by
  have h : decodeMovePtr none (encodeMove r) =
      (decodeMove zeroMove (encodeMove r)).map some := rfl
  rw [h, decodeMove_encode]
  rfl

theorem decodeMoveElems_map_encode (rs : List SnippetRepositoryStorageMove) :
    decodeMoveElems (rs.map encodeMove) = some (rs.map some) := by
  induction rs with
  | nil => rfl
  | cons r rs ih =>
      simp only [List.map_cons, decodeMoveElems, decodeMovePtr_encode, ih]

/-- Claim C1: `ScheduleAllSnippetStorageMoves` returns only the transport
response metadata and error — exactly the `(resp, err)` pair of the underlying
`Do` call; the body decoded into the local variable is never exposed to the
caller, for every response the remote service sends. -/
theorem ScheduleAllSnippetStorageMoves_returns_only_do_pair
    (s : SnippetRepositoryStorageMoveService) (opts : ScheduleSnippetStorageMoveOptions)
    (os : List RequestOptionFunc) (req : Request)
    (h : s.client.newRequest Method.post "snippet_repository_storage_moves"
        (ReqBody.scheduleOpts opts) os = Except.ok req) :
    s.ScheduleAllSnippetStorageMoves opts os = doPairOnly s.client req := by
  have key : s.ScheduleAllSnippetStorageMoves opts os =
      (match doPtr s.client req none with
       | (resp, Except.error err) => (resp, some err)
       | (resp, Except.ok _ssm) => (resp, none)) := by
    unfold SnippetRepositoryStorageMoveService.ScheduleAllSnippetStorageMoves
    rw [h]
  rw [key]
  unfold doPairOnly
  rcases hd : doPtr s.client req none with ⟨resp, r⟩
  cases r <;> rfl

/-- Witness for C1: a concrete client whose `Do` returns a `null` body. -/
theorem ScheduleAllSnippetStorageMoves_returns_only_do_pair_witness :
    (SnippetRepositoryStorageMoveService.mk
        (okClient Json.null ⟨200, 0⟩)).ScheduleAllSnippetStorageMoves ⟨"a", "b"⟩ [] =
      doPairOnly (okClient Json.null ⟨200, 0⟩)
        ⟨Method.post, "snippet_repository_storage_moves",
          ReqBody.scheduleOpts ⟨"a", "b"⟩, []⟩ :=
  ScheduleAllSnippetStorageMoves_returns_only_do_pair _ _ _ _ rfl

/-- Claim C2: each operation passes exactly the documented request path to the
request constructor: the two collection operations use the fixed path, the
snippet-scoped operations interpolate the decimal rendering of the identifiers,
and snippet id 42 yields `snippets/42/repository_storage_moves`. -/
theorem request_paths_match_documented_endpoints
    (snippet repositoryStorage : Int) (opts : RetrieveAllSnippetStorageMovesOptions)
    (sopts : ScheduleSnippetStorageMoveOptions) (os : List RequestOptionFunc) :
    (probeService.RetrieveAllSnippetStorageMoves opts os).2.2 =
      some (GoError.probe Method.get "snippet_repository_storage_moves"
        (ReqBody.listOpts opts) os) ∧
    (probeService.ScheduleAllSnippetStorageMoves sopts os).2 =
      some (GoError.probe Method.post "snippet_repository_storage_moves"
        (ReqBody.scheduleOpts sopts) os) ∧
    (probeService.RetrieveAllStorageMovesForSnippet snippet opts os).2.2 =
      some (GoError.probe Method.get
        ("snippets/" ++ toString snippet ++ "/repository_storage_moves")
        (ReqBody.listOpts opts) os) ∧
    (probeService.ScheduleStorageMoveForSnippet snippet sopts os).2.2 =
      some (GoError.probe Method.post
        ("snippets/" ++ toString snippet ++ "/repository_storage_moves")
        (ReqBody.scheduleOpts sopts) os) ∧
    (probeService.GetSnippetStorageMove repositoryStorage os).2.2 =
      some (GoError.probe Method.get
        ("snippet_repository_storage_moves/" ++ toString repositoryStorage)
        ReqBody.nil os) ∧
    (probeService.GetStorageMoveForSnippet snippet repositoryStorage os).2.2 =
      some (GoError.probe Method.get
        ("snippets/" ++ toString snippet ++ "/repository_storage_moves/" ++
          toString repositoryStorage) ReqBody.nil os) ∧
    (probeService.RetrieveAllStorageMovesForSnippet 42 opts os).2.2 =
      some (GoError.probe Method.get "snippets/42/repository_storage_moves"
        (ReqBody.listOpts opts) os) := by
  refine ⟨rfl, rfl, ?_, ?_, ?_, ?_, rfl⟩
  · show some (GoError.probe Method.get
        ("snippets/" ++ goSprintfD snippet ++ "/repository_storage_moves")
        (ReqBody.listOpts opts) os) = _
    rw [goSprintfD_eq_toString]
  · show some (GoError.probe Method.post
        ("snippets/" ++ goSprintfD snippet ++ "/repository_storage_moves")
        (ReqBody.scheduleOpts sopts) os) = _
    rw [goSprintfD_eq_toString]
  · show some (GoError.probe Method.get
        ("snippet_repository_storage_moves/" ++ goSprintfD repositoryStorage)
        ReqBody.nil os) = _
    rw [goSprintfD_eq_toString]
  · show some (GoError.probe Method.get
        ("snippets/" ++ goSprintfD snippet ++ "/repository_storage_moves/" ++
          goSprintfD repositoryStorage) ReqBody.nil os) = _
    rw [goSprintfD_eq_toString, goSprintfD_eq_toString]

/-- Claim C3: the serialized body of `ScheduleSnippetStorageMoveOptions`
contains `source_storage_name` iff the field is non-empty, contains
`destination_storage_name` iff that field is non-empty, and is the empty
object when both are empty. -/
theorem ScheduleSnippetStorageMoveOptions_omitempty
    (o : ScheduleSnippetStorageMoveOptions) :
    ("source_storage_name" ∈ jsonKeys (marshalScheduleSnippetStorageMoveOptions o) ↔
      o.SourceStorageName ≠ "") ∧
    ("destination_storage_name" ∈ jsonKeys (marshalScheduleSnippetStorageMoveOptions o) ↔
      o.DestinationStorageName ≠ "") ∧
    (o.SourceStorageName = "" → o.DestinationStorageName = "" →
      marshalScheduleSnippetStorageMoveOptions o = Json.obj []) := by
  obtain ⟨a, b⟩ := o
  by_cases ha : a = "" <;> by_cases hb : b = "" <;>
    simp [marshalScheduleSnippetStorageMoveOptions, jsonKeys, ha, hb]

/-- Witness for C3: both fields empty give the empty JSON object. -/
theorem ScheduleSnippetStorageMoveOptions_omitempty_witness :
    marshalScheduleSnippetStorageMoveOptions ⟨"", ""⟩ = Json.obj [] :=
  (ScheduleSnippetStorageMoveOptions_omitempty ⟨"", ""⟩).2.2 rfl rfl

/-- Claim C4: for every operation, an error from the request constructor or
from the request executor is returned to the caller unchanged — the very
error value `e`, for every error value and every response metadata, with no
retry, backoff, or transformation. -/
theorem errors_propagate_unchanged (e : GoError) (resp : Option Response)
    (snippet repositoryStorage : Int) (opts : RetrieveAllSnippetStorageMovesOptions)
    (sopts : ScheduleSnippetStorageMoveOptions) (os : List RequestOptionFunc) :
    ((SnippetRepositoryStorageMoveService.mk
        (newReqErrClient e)).RetrieveAllSnippetStorageMoves opts os = (none, none, some e)) ∧
    ((SnippetRepositoryStorageMoveService.mk
        (newReqErrClient e)).RetrieveAllStorageMovesForSnippet snippet opts os =
      (none, none, some e)) ∧
    ((SnippetRepositoryStorageMoveService.mk
        (newReqErrClient e)).GetSnippetStorageMove repositoryStorage os =
      (none, none, some e)) ∧
    ((SnippetRepositoryStorageMoveService.mk
        (newReqErrClient e)).GetStorageMoveForSnippet snippet repositoryStorage os =
      (none, none, some e)) ∧
    ((SnippetRepositoryStorageMoveService.mk
        (newReqErrClient e)).ScheduleStorageMoveForSnippet snippet sopts os =
      (none, none, some e)) ∧
    ((SnippetRepositoryStorageMoveService.mk
        (newReqErrClient e)).ScheduleAllSnippetStorageMoves sopts os = (none, some e)) ∧
    ((SnippetRepositoryStorageMoveService.mk
        (doErrClient e resp)).RetrieveAllSnippetStorageMoves opts os = (none, resp, some e)) ∧
    ((SnippetRepositoryStorageMoveService.mk
        (doErrClient e resp)).RetrieveAllStorageMovesForSnippet snippet opts os =
      (none, resp, some e)) ∧
    ((SnippetRepositoryStorageMoveService.mk
        (doErrClient e resp)).GetSnippetStorageMove repositoryStorage os =
      (none, resp, some e)) ∧
    ((SnippetRepositoryStorageMoveService.mk
        (doErrClient e resp)).GetStorageMoveForSnippet snippet repositoryStorage os =
      (none, resp, some e)) ∧
    ((SnippetRepositoryStorageMoveService.mk
        (doErrClient e resp)).ScheduleStorageMoveForSnippet snippet sopts os =
      (none, resp, some e)) ∧
    ((SnippetRepositoryStorageMoveService.mk
        (doErrClient e resp)).ScheduleAllSnippetStorageMoves sopts os = (resp, some e)) :=
  ⟨rfl, rfl, rfl, rfl, rfl, rfl, rfl, rfl, rfl, rfl, rfl, rfl⟩

/-- Claim C5: for every client behaviour, whenever a record-returning
operation returns an error, its record (or list) component is `none` — no
partial record accompanies an error. -/
theorem no_partial_record_on_error (c : Client) (snippet repositoryStorage : Int)
    (opts : RetrieveAllSnippetStorageMovesOptions)
    (sopts : ScheduleSnippetStorageMoveOptions) (os : List RequestOptionFunc) (e : GoError) :
    (((SnippetRepositoryStorageMoveService.mk c).RetrieveAllSnippetStorageMoves opts os).2.2 =
        some e →
      ((SnippetRepositoryStorageMoveService.mk c).RetrieveAllSnippetStorageMoves opts os).1 =
        none) ∧
    (((SnippetRepositoryStorageMoveService.mk
          c).RetrieveAllStorageMovesForSnippet snippet opts os).2.2 = some e →
      ((SnippetRepositoryStorageMoveService.mk
          c).RetrieveAllStorageMovesForSnippet snippet opts os).1 = none) ∧
    (((SnippetRepositoryStorageMoveService.mk
          c).GetSnippetStorageMove repositoryStorage os).2.2 = some e →
      ((SnippetRepositoryStorageMoveService.mk
          c).GetSnippetStorageMove repositoryStorage os).1 = none) ∧
    (((SnippetRepositoryStorageMoveService.mk
          c).GetStorageMoveForSnippet snippet repositoryStorage os).2.2 = some e →
      ((SnippetRepositoryStorageMoveService.mk
          c).GetStorageMoveForSnippet snippet repositoryStorage os).1 = none) ∧
    (((SnippetRepositoryStorageMoveService.mk
          c).ScheduleStorageMoveForSnippet snippet sopts os).2.2 = some e →
      ((SnippetRepositoryStorageMoveService.mk
          c).ScheduleStorageMoveForSnippet snippet sopts os).1 = none) := by
  refine ⟨?_, ?_, ?_, ?_, ?_⟩ <;> intro h
  · cases hn : c.newRequest Method.get "snippet_repository_storage_moves"
        (ReqBody.listOpts opts) os with
    | error e' =>
        have hop : (SnippetRepositoryStorageMoveService.mk
            c).RetrieveAllSnippetStorageMoves opts os = (none, none, some e') := by
          unfold SnippetRepositoryStorageMoveService.RetrieveAllSnippetStorageMoves
          rw [hn]
        rw [hop]
    | ok req =>
        have hop : (SnippetRepositoryStorageMoveService.mk
            c).RetrieveAllSnippetStorageMoves opts os =
            (match doSlice c req with
             | (resp, Except.error err) => (none, resp, some err)
             | (resp, Except.ok ssms) => (ssms, resp, none)) := by
          unfold SnippetRepositoryStorageMoveService.RetrieveAllSnippetStorageMoves
          rw [hn]
        rcases hd : doSlice c req with ⟨resp, r⟩
        rw [hd] at hop
        cases r with
        | error e' => rw [hop]
        | ok v => rw [hop] at h; simp at h
  · cases hn : c.newRequest Method.get
        ("snippets/" ++ goSprintfD snippet ++ "/repository_storage_moves")
        (ReqBody.listOpts opts) os with
    | error e' =>
        have hop : (SnippetRepositoryStorageMoveService.mk
            c).RetrieveAllStorageMovesForSnippet snippet opts os = (none, none, some e') := by
          unfold SnippetRepositoryStorageMoveService.RetrieveAllStorageMovesForSnippet
          rw [hn]
        rw [hop]
    | ok req =>
        have hop : (SnippetRepositoryStorageMoveService.mk
            c).RetrieveAllStorageMovesForSnippet snippet opts os =
            (match doSlice c req with
             | (resp, Except.error err) => (none, resp, some err)
             | (resp, Except.ok ssms) => (ssms, resp, none)) := by
          unfold SnippetRepositoryStorageMoveService.RetrieveAllStorageMovesForSnippet
          rw [hn]
        rcases hd : doSlice c req with ⟨resp, r⟩
        rw [hd] at hop
        cases r with
        | error e' => rw [hop]
        | ok v => rw [hop] at h; simp at h
  · cases hn : c.newRequest Method.get
        ("snippet_repository_storage_moves/" ++ goSprintfD repositoryStorage)
        ReqBody.nil os with
    | error e' =>
        have hop : (SnippetRepositoryStorageMoveService.mk
            c).GetSnippetStorageMove repositoryStorage os = (none, none, some e') := by
          unfold SnippetRepositoryStorageMoveService.GetSnippetStorageMove
          rw [hn]
        rw [hop]
    | ok req =>
        have hop : (SnippetRepositoryStorageMoveService.mk
            c).GetSnippetStorageMove repositoryStorage os =
            (match doRecord c req zeroMove with
             | (resp, Except.error err) => (none, resp, some err)
             | (resp, Except.ok ssm) => (some ssm, resp, none)) := by
          unfold SnippetRepositoryStorageMoveService.GetSnippetStorageMove
          rw [hn]
        rcases hd : doRecord c req zeroMove with ⟨resp, r⟩
        rw [hd] at hop
        cases r with
        | error e' => rw [hop]
        | ok v => rw [hop] at h; simp at h
  · cases hn : c.newRequest Method.get
        ("snippets/" ++ goSprintfD snippet ++ "/repository_storage_moves/" ++
          goSprintfD repositoryStorage) ReqBody.nil os with
    | error e' =>
        have hop : (SnippetRepositoryStorageMoveService.mk
            c).GetStorageMoveForSnippet snippet repositoryStorage os =
            (none, none, some e') := by
          unfold SnippetRepositoryStorageMoveService.GetStorageMoveForSnippet
          rw [hn]
        rw [hop]
    | ok req =>
        have hop : (SnippetRepositoryStorageMoveService.mk
            c).GetStorageMoveForSnippet snippet repositoryStorage os =
            (match doRecord c req zeroMove with
             | (resp, Except.error err) => (none, resp, some err)
             | (resp, Except.ok ssm) => (some ssm, resp, none)) := by
          unfold SnippetRepositoryStorageMoveService.GetStorageMoveForSnippet
          rw [hn]
        rcases hd : doRecord c req zeroMove with ⟨resp, r⟩
        rw [hd] at hop
        cases r with
        | error e' => rw [hop]
        | ok v => rw [hop] at h; simp at h
  · cases hn : c.newRequest Method.post
        ("snippets/" ++ goSprintfD snippet ++ "/repository_storage_moves")
        (ReqBody.scheduleOpts sopts) os with
    | error e' =>
        have hop : (SnippetRepositoryStorageMoveService.mk
            c).ScheduleStorageMoveForSnippet snippet sopts os = (none, none, some e') := by
          unfold SnippetRepositoryStorageMoveService.ScheduleStorageMoveForSnippet
          rw [hn]
        rw [hop]
    | ok req =>
        have hop : (SnippetRepositoryStorageMoveService.mk
            c).ScheduleStorageMoveForSnippet snippet sopts os =
            (match doRecord c req zeroMove with
             | (resp, Except.error err) => (none, resp, some err)
             | (resp, Except.ok ssm) => (some ssm, resp, none)) := by
          unfold SnippetRepositoryStorageMoveService.ScheduleStorageMoveForSnippet
          rw [hn]
        rcases hd : doRecord c req zeroMove with ⟨resp, r⟩
        rw [hd] at hop
        cases r with
        | error e' => rw [hop]
        | ok v => rw [hop] at h; simp at h

/-- Witness for C5: a client that fails at request construction yields the
`none` list. -/
theorem no_partial_record_on_error_witness :
    ((SnippetRepositoryStorageMoveService.mk
        probeClient).RetrieveAllSnippetStorageMoves ⟨1, 20⟩ []).1 = none :=
  (no_partial_record_on_error probeClient 0 0 ⟨1, 20⟩ ⟨"", ""⟩ []
    (GoError.probe Method.get "snippet_repository_storage_moves"
      (ReqBody.listOpts ⟨1, 20⟩) [])).1 rfl

/-- Claim C6: zero and negative identifiers are not rejected locally: the
identifier-taking operations render the identifier into the path unchanged
(decimal, with sign) and hand the request to the transport layer, whose
probe observes exactly that path. -/
theorem no_local_id_validation (snippet repositoryStorage : Int)
    (opts : RetrieveAllSnippetStorageMovesOptions)
    (sopts : ScheduleSnippetStorageMoveOptions) (os : List RequestOptionFunc)
    (_hs : snippet ≤ 0) (_hi : repositoryStorage ≤ 0) :
    (probeService.RetrieveAllStorageMovesForSnippet snippet opts os).2.2 =
      some (GoError.probe Method.get
        ("snippets/" ++ toString snippet ++ "/repository_storage_moves")
        (ReqBody.listOpts opts) os) ∧
    (probeService.GetSnippetStorageMove repositoryStorage os).2.2 =
      some (GoError.probe Method.get
        ("snippet_repository_storage_moves/" ++ toString repositoryStorage)
        ReqBody.nil os) ∧
    (probeService.GetStorageMoveForSnippet snippet repositoryStorage os).2.2 =
      some (GoError.probe Method.get
        ("snippets/" ++ toString snippet ++ "/repository_storage_moves/" ++
          toString repositoryStorage) ReqBody.nil os) ∧
    (probeService.ScheduleStorageMoveForSnippet snippet sopts os).2.2 =
      some (GoError.probe Method.post
        ("snippets/" ++ toString snippet ++ "/repository_storage_moves")
        (ReqBody.scheduleOpts sopts) os) := by
  refine ⟨?_, ?_, ?_, ?_⟩
  · show some (GoError.probe Method.get
        ("snippets/" ++ goSprintfD snippet ++ "/repository_storage_moves")
        (ReqBody.listOpts opts) os) = _
    rw [goSprintfD_eq_toString]
  · show some (GoError.probe Method.get
        ("snippet_repository_storage_moves/" ++ goSprintfD repositoryStorage)
        ReqBody.nil os) = _
    rw [goSprintfD_eq_toString]
  · show some (GoError.probe Method.get
        ("snippets/" ++ goSprintfD snippet ++ "/repository_storage_moves/" ++
          goSprintfD repositoryStorage) ReqBody.nil os) = _
    rw [goSprintfD_eq_toString, goSprintfD_eq_toString]
  · show some (GoError.probe Method.post
        ("snippets/" ++ goSprintfD snippet ++ "/repository_storage_moves")
        (ReqBody.scheduleOpts sopts) os) = _
    rw [goSprintfD_eq_toString]

/-- Witness for C6: snippet id -1 and move id 0 reach the transport layer,
with the -1 rendered into the snippet path unchanged. -/
theorem no_local_id_validation_witness :
    (-1 : Int) ≤ 0 ∧ (0 : Int) ≤ 0 ∧
    (probeService.RetrieveAllStorageMovesForSnippet (-1) ⟨1, 20⟩ []).2.2 =
      some (GoError.probe Method.get "snippets/-1/repository_storage_moves"
        (ReqBody.listOpts ⟨1, 20⟩) []) :=
  ⟨by decide, by decide,
    (no_local_id_validation (-1) 0 ⟨1, 20⟩ ⟨"", ""⟩ [] (by decide) (by decide)).1⟩

/-- Claim C7: decoding a well-formed JSON array of storage-move objects
through either list operation yields a list of the same length whose
elements' fields equal the corresponding values of the input JSON: the input
is the element-wise canonical encoding of records `rs`, and the operations
return exactly those records. -/
theorem list_decode_roundtrip (rs : List SnippetRepositoryStorageMove) (resp : Response)
    (snippet : Int) (opts : RetrieveAllSnippetStorageMovesOptions)
    (os : List RequestOptionFunc) :
    ((okService (Json.arr (rs.map encodeMove)) resp).RetrieveAllSnippetStorageMoves
        opts os).1 = some (rs.map some) ∧
    ((okService (Json.arr (rs.map encodeMove)) resp).RetrieveAllStorageMovesForSnippet
        snippet opts os).1 = some (rs.map some) ∧
    (rs.map some).length = rs.length := by
  have hsl : decodeMoveSlice (Json.arr (rs.map encodeMove)) = some (some (rs.map some)) := by
    show (decodeMoveElems (rs.map encodeMove)).map some = _
    rw [decodeMoveElems_map_encode]
    rfl
  refine ⟨?_, ?_, by simp⟩
  · have h2 : doSlice (okClient (Json.arr (rs.map encodeMove)) resp)
        ⟨Method.get, "snippet_repository_storage_moves", ReqBody.listOpts opts, os⟩ =
        (some resp, Except.ok (some (rs.map some))) := by
      show (match decodeMoveSlice (Json.arr (rs.map encodeMove)) with
            | some v => ((some resp : Option Response), Except.ok v)
            | none => (some resp, Except.error jsonDecodeError)) =
          (some resp, Except.ok (some (rs.map some)))
      rw [hsl]
    show (match doSlice (okClient (Json.arr (rs.map encodeMove)) resp)
          ⟨Method.get, "snippet_repository_storage_moves", ReqBody.listOpts opts, os⟩ with
          | (resp', Except.error err) =>
              ((none : Option (List (Option SnippetRepositoryStorageMove))), resp', some err)
          | (resp', Except.ok ssms) => (ssms, resp', none)).1 = some (rs.map some)
    rw [h2]
  · have h2 : doSlice (okClient (Json.arr (rs.map encodeMove)) resp)
        ⟨Method.get, "snippets/" ++ goSprintfD snippet ++ "/repository_storage_moves",
          ReqBody.listOpts opts, os⟩ =
        (some resp, Except.ok (some (rs.map some))) := by
      show (match decodeMoveSlice (Json.arr (rs.map encodeMove)) with
            | some v => ((some resp : Option Response), Except.ok v)
            | none => (some resp, Except.error jsonDecodeError)) =
          (some resp, Except.ok (some (rs.map some)))
      rw [hsl]
    show (match doSlice (okClient (Json.arr (rs.map encodeMove)) resp)
          ⟨Method.get, "snippets/" ++ goSprintfD snippet ++ "/repository_storage_moves",
            ReqBody.listOpts opts, os⟩ with
          | (resp', Except.error err) =>
              ((none : Option (List (Option SnippetRepositoryStorageMove))), resp', some err)
          | (resp', Except.ok ssms) => (ssms, resp', none)).1 = some (rs.map some)
    rw [h2]

/-- Claim C8: no operation mutates the service: after any sequence of
operations, threaded in state-passing style, the service value (and hence
its client reference) is unchanged. -/
theorem service_state_unchanged (s : SnippetRepositoryStorageMoveService)
    (cs : List OpCall) : runOps s cs = s := by
  induction cs generalizing s with
  | nil => rfl
  | cons c cs ih =>
      have h1 : (applyOp s c).1 = s := by cases c <;> rfl
      simp only [runOps, List.foldl_cons] at ih ⊢
      rw [h1]
      exact ih s

/-- Claim C9: the singleton GET operations pass Go `nil` as the options/body
argument to the request constructor, while the list operations forward the
caller's pagination options; the probe observes the exact body argument. -/
theorem singleton_gets_pass_nil_body (snippet repositoryStorage : Int)
    (opts : RetrieveAllSnippetStorageMovesOptions) (os : List RequestOptionFunc) :
    (probeService.GetSnippetStorageMove repositoryStorage os).2.2 =
      some (GoError.probe Method.get
        ("snippet_repository_storage_moves/" ++ goSprintfD repositoryStorage)
        ReqBody.nil os) ∧
    (probeService.GetStorageMoveForSnippet snippet repositoryStorage os).2.2 =
      some (GoError.probe Method.get
        ("snippets/" ++ goSprintfD snippet ++ "/repository_storage_moves/" ++
          goSprintfD repositoryStorage) ReqBody.nil os) ∧
    (probeService.RetrieveAllSnippetStorageMoves opts os).2.2 =
      some (GoError.probe Method.get "snippet_repository_storage_moves"
        (ReqBody.listOpts opts) os) ∧
    (probeService.RetrieveAllStorageMovesForSnippet snippet opts os).2.2 =
      some (GoError.probe Method.get
        ("snippets/" ++ goSprintfD snippet ++ "/repository_storage_moves")
        (ReqBody.listOpts opts) os) :=
  ⟨rfl, rfl, rfl, rfl⟩

/-- Claim C10: for every client behaviour, whenever a single-record operation
succeeds (no error), the returned record is non-nil — the record is allocated
before the request executes, so even a `null` body leaves a (zero-valued)
record in place. -/
theorem single_record_nonnil_on_success (c : Client) (snippet repositoryStorage : Int)
    (sopts : ScheduleSnippetStorageMoveOptions) (os : List RequestOptionFunc) :
    (((SnippetRepositoryStorageMoveService.mk
          c).GetSnippetStorageMove repositoryStorage os).2.2 = none →
      ((SnippetRepositoryStorageMoveService.mk
          c).GetSnippetStorageMove repositoryStorage os).1.isSome = true) ∧
    (((SnippetRepositoryStorageMoveService.mk
          c).GetStorageMoveForSnippet snippet repositoryStorage os).2.2 = none →
      ((SnippetRepositoryStorageMoveService.mk
          c).GetStorageMoveForSnippet snippet repositoryStorage os).1.isSome = true) ∧
    (((SnippetRepositoryStorageMoveService.mk
          c).ScheduleStorageMoveForSnippet snippet sopts os).2.2 = none →
      ((SnippetRepositoryStorageMoveService.mk
          c).ScheduleStorageMoveForSnippet snippet sopts os).1.isSome = true) := by
  refine ⟨?_, ?_, ?_⟩ <;> intro h
  · cases hn : c.newRequest Method.get
        ("snippet_repository_storage_moves/" ++ goSprintfD repositoryStorage)
        ReqBody.nil os with
    | error e' =>
        have hop : (SnippetRepositoryStorageMoveService.mk
            c).GetSnippetStorageMove repositoryStorage os = (none, none, some e') := by
          unfold SnippetRepositoryStorageMoveService.GetSnippetStorageMove
          rw [hn]
        rw [hop] at h
        simp at h
    | ok req =>
        have hop : (SnippetRepositoryStorageMoveService.mk
            c).GetSnippetStorageMove repositoryStorage os =
            (match doRecord c req zeroMove with
             | (resp, Except.error err) => (none, resp, some err)
             | (resp, Except.ok ssm) => (some ssm, resp, none)) := by
          unfold SnippetRepositoryStorageMoveService.GetSnippetStorageMove
          rw [hn]
        rcases hd : doRecord c req zeroMove with ⟨resp, r⟩
        rw [hd] at hop
        cases r with
        | error e' => rw [hop] at h; simp at h
        | ok v => rw [hop]; rfl
  · cases hn : c.newRequest Method.get
        ("snippets/" ++ goSprintfD snippet ++ "/repository_storage_moves/" ++
          goSprintfD repositoryStorage) ReqBody.nil os with
    | error e' =>
        have hop : (SnippetRepositoryStorageMoveService.mk
            c).GetStorageMoveForSnippet snippet repositoryStorage os =
            (none, none, some e') := by
          unfold SnippetRepositoryStorageMoveService.GetStorageMoveForSnippet
          rw [hn]
        rw [hop] at h
        simp at h
    | ok req =>
        have hop : (SnippetRepositoryStorageMoveService.mk
            c).GetStorageMoveForSnippet snippet repositoryStorage os =
            (match doRecord c req zeroMove with
             | (resp, Except.error err) => (none, resp, some err)
             | (resp, Except.ok ssm) => (some ssm, resp, none)) := by
          unfold SnippetRepositoryStorageMoveService.GetStorageMoveForSnippet
          rw [hn]
        rcases hd : doRecord c req zeroMove with ⟨resp, r⟩
        rw [hd] at hop
        cases r with
        | error e' => rw [hop] at h; simp at h
        | ok v => rw [hop]; rfl
  · cases hn : c.newRequest Method.post
        ("snippets/" ++ goSprintfD snippet ++ "/repository_storage_moves")
        (ReqBody.scheduleOpts sopts) os with
    | error e' =>
        have hop : (SnippetRepositoryStorageMoveService.mk
            c).ScheduleStorageMoveForSnippet snippet sopts os = (none, none, some e') := by
          unfold SnippetRepositoryStorageMoveService.ScheduleStorageMoveForSnippet
          rw [hn]
        rw [hop] at h
        simp at h
    | ok req =>
        have hop : (SnippetRepositoryStorageMoveService.mk
            c).ScheduleStorageMoveForSnippet snippet sopts os =
            (match doRecord c req zeroMove with
             | (resp, Except.error err) => (none, resp, some err)
             | (resp, Except.ok ssm) => (some ssm, resp, none)) := by
          unfold SnippetRepositoryStorageMoveService.ScheduleStorageMoveForSnippet
          rw [hn]
        rcases hd : doRecord c req zeroMove with ⟨resp, r⟩
        rw [hd] at hop
        cases r with
        | error e' => rw [hop] at h; simp at h
        | ok v => rw [hop]; rfl

/-- Witness for C10: a client whose `Do` returns a `null` body succeeds and
yields a non-nil (zero-valued) record. -/
theorem single_record_nonnil_on_success_witness :
    ((SnippetRepositoryStorageMoveService.mk
        (okClient Json.null ⟨200, 0⟩)).GetSnippetStorageMove 7 []).1.isSome = true :=
  (single_record_nonnil_on_success (okClient Json.null ⟨200, 0⟩) 0 7 ⟨"", ""⟩ []).1 rfl
